import Mathlib

/-! Shallow embedding of the `SqlDataLayer` persistence adapter of
`lit-data-layers` (`src/lit_data_layers/sqldb/__init__.py` together with the
schema in `src/lit_data_layers/sqldb/models.py`), and proofs about its
operations.

Conventions of the embedding:

* database timestamps (`datetime` values) are abstract instants modelled as
  `Nat`; every operation that calls `datetime.now(timezone.utc)` takes the
  current instant as an explicit `now : Nat` argument;
* `datetime.isoformat` / `datetime.fromisoformat` are modelled by an injective
  rendering of instants into strings and a left inverse of it;
* `uuid.uuid4()` is modelled as a fresh-name source `nextUuid` threaded through
  the store state, and the autoincrementing integer primary key of the
  `feedback` table as the counter `feedbackSeq`;
* JSON blobs (the `metadata` columns and `tags`) are opaque values with
  decidable equality: association lists of strings, and lists of strings;
* each table is a list of rows in insertion order; a SQL `WHERE` is a
  `List.filter`, `ORDER BY … DESC` is a sort, `LIMIT` is `List.take`, and the
  ORM's `.first()` on a result is `List.find?`.
-/

/-- JSON object blobs stored in `metadata` columns: opaque association lists. -/
abbrev Json := List (String × String)

/-- `datetime.isoformat()`: injective rendering of an instant into a string. -/
def isoformat (t : Nat) : String := toString t

/-- Decimal digit accumulator used to read a rendered instant back. -/
def digitsToNat (acc : Nat) : List Char → Nat
  | [] => acc
  | c :: cs => digitsToNat (acc * 10 + (c.toNat - '0'.toNat)) cs

/-- `datetime.fromisoformat`: parses a rendered instant back (total function;
on the decimal renderings produced by `isoformat` it is its inverse). -/
def fromisoformat (s : String) : Nat := digitsToNat 0 s.data

/-- `str(datetime)`, used for the `createdAt` field of returned users. -/
def dtStr (t : Nat) : String := toString t

/-- `str(uuid.uuid4())` for the n-th fresh uuid drawn from the fresh-name
source. -/
def uuidStr (n : Nat) : String := "uuid-" ++ toString n

/-- `date_serialize` from the adapter: `None` serializes to `None`, a present
datetime to its `isoformat()`. -/
def date_serialize : Option Nat → Option String
  | none => none
  | some d => some (isoformat d)

/-- Python truthiness of an optional string (`None` and `""` are falsy), used
by the adapter's `if filters.userId:`-style guards. -/
def isTruthy : Option String → Bool
  | some s => s != ""
  | none => false

/-- Replace the first element satisfying `p` (the ORM mutates exactly the row
obtained with `.first()` and commits it). -/
def updateFirst (p : α → Bool) (f : α → α) : List α → List α
  | [] => []
  | x :: xs => if p x then f x :: xs else x :: updateFirst p f xs

/-- Row of the `users` table (`PersistedUserModel`). -/
structure UserRow where
  id : String
  identifier : String
  createdAt : Nat
  metadata_ : Option Json
  deriving Repr, DecidableEq

/-- Row of the `threads` table (`ThreadModel`). -/
structure ThreadRow where
  id : String
  name : Option String
  createdAt : Nat
  metadata_ : Option Json
  user_id : Option String
  tags : Option (List String)
  deriving Repr, DecidableEq

/-- Row of the `steps` table (`StepModel`). -/
structure StepRow where
  id : String
  thread_id : String
  parent_id : Option String
  name : String
  type : String
  input : Option String
  output : Option String
  metadata_ : Option Json
  created_at : Nat
  start_time : Nat
  end_time : Option Nat
  deriving Repr, DecidableEq

/-- Row of the `elements` table (`ElementModel`). -/
structure ElementRow where
  id : String
  type : String
  name : String
  chainlit_key : Option String
  url : Option String
  object_key : Option String
  path : Option String
  display : String
  size : Option String
  for_id : Option String
  language : Option String
  mime : Option String
  content : Option String
  page : Option Int
  thread_id : String
  persisted : Bool
  updatable : Bool
  deriving Repr, DecidableEq

/-- Row of the `feedback` table (`Feedback` model); `id` is the
autoincrementing integer primary key. -/
structure FeedbackRow where
  id : Nat
  for_id : String
  value : Option String
  strategy : String
  comment : Option String
  deriving Repr, DecidableEq

/-- The whole relational store, together with the fresh-uuid source and the
`feedback.id` autoincrement counter. -/
structure DB where
  users : List UserRow
  threads : List ThreadRow
  steps : List StepRow
  elements : List ElementRow
  feedback : List FeedbackRow
  nextUuid : Nat
  feedbackSeq : Nat
  deriving Repr, DecidableEq

/-- The store with no rows. -/
def dbEmpty : DB :=
  { users := [], threads := [], steps := [], elements := [], feedback := []
    nextUuid := 0, feedbackSeq := 0 }

/-- The `chainlit.User` input of `create_user` (its `metadata` defaults to the
empty dict). -/
structure User where
  identifier : String
  metadata : Json
  deriving Repr, DecidableEq

/-- The `PersistedUser` record returned by `get_user`/`create_user`; its
`createdAt` is the `str()` of the row's datetime. -/
structure PersistedUser where
  id : String
  identifier : String
  createdAt : String
  metadata : Option Json
  deriving Repr, DecidableEq

/-- Result of `get_user`.  The branch that creates a missing user returns
`self.get_user(identifier, no_create=True)` without awaiting it, so the caller
receives the coroutine object itself rather than a user record; that outcome
is the `coroutine` constructor. -/
inductive GetUserResult where
  | found (u : PersistedUser)
  | absent
  | coroutine
  deriving Repr, DecidableEq

/-- The `Feedback` input of `upsert_feedback` (`feedback.id` is an optional
string, `value` an integer rating). -/
structure FeedbackInput where
  id : Option String
  forId : String
  value : Int
  comment : Option String
  deriving Repr, DecidableEq

/-- `ElementDict`: the wire shape of an element, used both as input of
`create_element` and as its echoed result. -/
structure ElementDict where
  id : String
  threadId : String
  type : String
  chainlitKey : Option String
  url : Option String
  objectKey : Option String
  name : String
  display : String
  size : Option String
  language : Option String
  mime : Option String
  forId : Option String
  page : Option Int
  deriving Repr, DecidableEq

/-- `StepDict` as consumed by `create_step`/`update_step`; the three
timestamps arrive as optional ISO-8601 strings (`end` is called `end_` since
`end` is reserved). -/
structure StepDict where
  id : String
  threadId : String
  parentId : Option String
  name : String
  type : String
  input : Option String
  output : Option String
  metadata : Option Json
  createdAt : Option String
  start : Option String
  end_ : Option String
  deriving Repr, DecidableEq

/-- The step dictionary produced by `create_step`, `update_step`, `get_thread`
and `list_threads`; timestamps are serialized with `date_serialize`.
(`create_step`/`update_step`/`list_threads` build it without a `parentId` key,
modelled as `parentId := none`; `get_thread` fills it from the row.) -/
structure StepOut where
  id : String
  threadId : String
  parentId : Option String
  name : String
  type : String
  input : Option String
  output : Option String
  metadata : Option Json
  createdAt : Option String
  start : Option String
  end_ : Option String
  deriving Repr, DecidableEq

/-- The user dictionary nested inside thread dictionaries. -/
structure UserDict where
  id : String
  identifier : String
  createdAt : Option String
  metadata : Option Json
  deriving Repr, DecidableEq

/-- `ThreadDict`: the hydrated thread shape returned by `get_thread` and
`list_threads`. -/
structure ThreadDict where
  id : String
  name : Option String
  createdAt : Option String
  metadata : Option Json
  tags : Option (List String)
  user : Option UserDict
  steps : List StepOut
  elements : List ElementDict
  deriving Repr, DecidableEq

/-- `chainlit.types.Pagination`: page size and opaque cursor. -/
structure Pagination where
  first : Nat
  cursor : Option String
  deriving Repr, DecidableEq

/-- `chainlit.types.ThreadFilter`. -/
structure ThreadFilter where
  userId : Option String
  search : Option String
  feedback : Option Int
  deriving Repr, DecidableEq

/-- `literalai.PageInfo` as built by `list_threads`. -/
structure PageInfo where
  hasNextPage : Bool
  startCursor : Option String
  endCursor : Option String
  deriving Repr, DecidableEq

/-- `literalai.PaginatedResponse` specialized to thread dictionaries. -/
structure PaginatedResponse where
  data : List ThreadDict
  pageInfo : PageInfo
  deriving Repr, DecidableEq

/-- `create_user`: upsert by `identifier`.  If a row exists its `metadata_`
column is replaced; otherwise a new row is inserted.  In the insert branch the
source passes the keyword argument `metadata=` to the declarative constructor
of `PersistedUserModel`, whose mapped column attribute is named `metadata_`
(`metadata` resolves to the declarative class-level `MetaData` attribute, so
`hasattr` succeeds and the value lands in a shadowing instance attribute): the
`metadata_` column of the inserted row therefore stays NULL, and the returned
record echoes that NULL. -/
def create_user (now : Nat) (db : DB) (user : User) : PersistedUser × DB :=
  match db.users.find? (fun u => u.identifier == user.identifier) with
  | some um =>
      ({ id := um.id
         identifier := um.identifier
         createdAt := dtStr um.createdAt
         metadata := some user.metadata },
       { db with users := (updateFirst (fun u => u.identifier == user.identifier)
           (fun u => { u with metadata_ := some user.metadata }) db.users) })
  | none =>
      let um : UserRow :=
        { id := uuidStr db.nextUuid
          identifier := user.identifier
          createdAt := now
          metadata_ := none }
      ({ id := um.id
         identifier := um.identifier
         createdAt := dtStr um.createdAt
         metadata := um.metadata_ },
       { db with users := db.users ++ [um], nextUuid := db.nextUuid + 1 })

/-- `get_user`: look up by `identifier`.  When found, the record's metadata is
`user_model.metadata_ or {}`.  When absent and creation is enabled the source
awaits `create_user` (with a `User` whose metadata defaults to the empty dict)
but then returns the coroutine `self.get_user(identifier, no_create=True)`
without awaiting it, so the caller gets the coroutine object. -/
def get_user (now : Nat) (db : DB) (identifier : String) (no_create : Bool) :
    GetUserResult × DB :=
  match db.users.find? (fun u => u.identifier == identifier) with
  | some um =>
      (.found { id := um.id
                identifier := um.identifier
                createdAt := dtStr um.createdAt
                metadata := some (um.metadata_.getD []) }, db)
  | none =>
      if !no_create then
        (.coroutine, (create_user now db { identifier := identifier, metadata := [] }).2)
      else
        (.absent, db)

/-- Insert branch of `upsert_feedback`: a new row whose integer primary key is
drawn from the autoincrement counter; `strategy` takes its column default. -/
def insertFeedback (db : DB) (fb : FeedbackInput) : String × DB :=
  let row : FeedbackRow :=
    { id := db.feedbackSeq
      for_id := fb.forId
      value := some (toString fb.value)
      strategy := "BINARY"
      comment := fb.comment }
  (toString row.id,
   { db with feedback := db.feedback ++ [row], feedbackSeq := db.feedbackSeq + 1 })

/-- `upsert_feedback`: when `feedback.id` is truthy, a set-based
`UPDATE feedback SET comment=…, value=… WHERE id = feedback.id` (the string id
is compared against the integer key, hence the `toString` on the row side) and
the given id is returned; otherwise a fresh row is inserted and its generated
id returned as a string. -/
def upsert_feedback (db : DB) (fb : FeedbackInput) : String × DB :=
  match fb.id with
  | some fid =>
      if fid = "" then insertFeedback db fb
      else
        (fid, { db with feedback := (db.feedback.map (fun r =>
            if toString r.id == fid
            then { r with comment := fb.comment, value := some (toString fb.value) }
            else r)) })
  | none => insertFeedback db fb

/-- Element row → `ElementDict`, the mapping used by `create_element`,
`get_element`, `get_thread` and `list_threads`. -/
def elementDictOf (e : ElementRow) : ElementDict :=
  { id := e.id
    threadId := e.thread_id
    type := e.type
    chainlitKey := e.chainlit_key
    url := e.url
    objectKey := e.object_key
    name := e.name
    display := e.display
    size := e.size
    language := e.language
    mime := e.mime
    forId := e.for_id
    page := e.page }

/-- `create_element`: inserts a row built from the dictionary (columns the
dictionary does not carry keep their defaults) and echoes the persisted
fields. -/
def create_element (db : DB) (e : ElementDict) : ElementDict × DB :=
  let row : ElementRow :=
    { id := e.id
      thread_id := e.threadId
      type := e.type
      chainlit_key := e.chainlitKey
      url := e.url
      object_key := e.objectKey
      name := e.name
      display := e.display
      size := e.size
      language := e.language
      mime := e.mime
      for_id := e.forId
      page := e.page
      path := none
      content := none
      persisted := false
      updatable := false }
  (elementDictOf row, { db with elements := db.elements ++ [row] })

/-- `get_element`: exact match on thread id and element id. -/
def get_element (db : DB) (thread_id element_id : String) : Option ElementDict :=
  (db.elements.find? (fun e => e.thread_id == thread_id && e.id == element_id)).map
    elementDictOf

/-- `delete_element`: delete by id, report whether a row was removed. -/
def delete_element (db : DB) (element_id : String) : Bool × DB :=
  match db.elements.find? (fun e => e.id == element_id) with
  | some _ => (true, { db with elements := db.elements.filter (fun e => e.id != element_id) })
  | none => (false, db)

/-- Step row → returned step dictionary.  `get_thread` includes the
`parentId` key; the dictionaries built by `create_step`, `update_step` and
`list_threads` have no `parentId` key, modelled by `includeParent := false`. -/
def stepOutOf (includeParent : Bool) (s : StepRow) : StepOut :=
  { id := s.id
    threadId := s.thread_id
    parentId := if includeParent then s.parent_id else none
    name := s.name
    type := s.type
    input := s.input
    output := s.output
    metadata := s.metadata_
    createdAt := date_serialize (some s.created_at)
    start := date_serialize (some s.start_time)
    end_ := date_serialize s.end_time }

/-- `create_step`: inserts a row whose `created_at` and `start_time` are both
`datetime.now(timezone.utc)` — the timestamps carried by the dictionary are
never read — and whose `end_time` is `None`; echoes the persisted fields with
the timestamps serialized by `date_serialize`. -/
def create_step (now : Nat) (db : DB) (sd : StepDict) : StepOut × DB :=
  let row : StepRow :=
    { id := sd.id
      thread_id := sd.threadId
      parent_id := sd.parentId
      name := sd.name
      type := sd.type
      input := sd.input
      output := sd.output
      metadata_ := sd.metadata
      created_at := now
      start_time := now
      end_time := none }
  (stepOutOf false row, { db with steps := db.steps ++ [row] })

/-- `x if step_dict.get(k) else old`: a timestamp field is reparsed (after
normalizing a trailing `Z` to `+00:00`) only when the dictionary carries a
truthy string for it. -/
def parseIfPresent (s : Option String) (old : Nat) : Nat :=
  match s with
  | some str => if str = "" then old else fromisoformat (str.replace "Z" "+00:00")
  | none => old

/-- Same as `parseIfPresent` for the nullable `end_time` column. -/
def parseIfPresentOpt (s : Option String) (old : Option Nat) : Option Nat :=
  match s with
  | some str => if str = "" then old else some (fromisoformat (str.replace "Z" "+00:00"))
  | none => old

/-- `update_step`: looks the row up by id; when absent it raises
`ValueError("Step with ID {id} not found")` (the adapter's not-found failure)
without writing; when present it overwrites the mutable fields and returns the
updated record. -/
def update_step (db : DB) (sd : StepDict) : Except String StepOut × DB :=
  match db.steps.find? (fun s => s.id == sd.id) with
  | some st =>
      let st' : StepRow :=
        { st with
          name := sd.name
          type := sd.type
          input := sd.input
          output := sd.output
          metadata_ := sd.metadata
          created_at := parseIfPresent sd.createdAt st.created_at
          start_time := parseIfPresent sd.start st.start_time
          end_time := parseIfPresentOpt sd.end_ st.end_time }
      (.ok (stepOutOf false st'),
       { db with steps := (updateFirst (fun s => s.id == sd.id) (fun _ => st') db.steps) })
  | none =>
      (.error ("Step with ID " ++ sd.id ++ " not found"), db)

/-- `delete_step`: delete by id.  A step that still has feedback rows cannot be
deleted: `feedback.for_id` is declared NOT NULL with no delete cascade, so the
ORM's attempt to null it out (or the database's restricting foreign key) fails
and the transaction rolls back, leaving the store unchanged. -/
def delete_step (db : DB) (step_id : String) : Except Unit Bool × DB :=
  match db.steps.find? (fun s => s.id == step_id) with
  | some _ =>
      if db.feedback.any (fun f => f.for_id == step_id) then
        (.error (), db)
      else
        (.ok true, { db with steps := db.steps.filter (fun s => s.id != step_id) })
  | none => (.ok false, db)

/-- User row → the nested user dictionary of thread results. -/
def userDictOf (u : UserRow) : UserDict :=
  { id := u.id
    identifier := u.identifier
    createdAt := date_serialize (some u.createdAt)
    metadata := u.metadata_ }

/-- Owning-user lookup `WHERE users.id = thread.user_id` (matches nothing when
`user_id` is NULL). -/
def ownerOf (db : DB) (t : ThreadRow) : Option UserRow :=
  match t.user_id with
  | some uid => db.users.find? (fun u => u.id == uid)
  | none => none

/-- `get_thread`: fetch the thread row by id and hydrate it with all its step
rows, all its element rows and its owning user. -/
def get_thread (db : DB) (thread_id : String) : Option ThreadDict :=
  match db.threads.find? (fun t => t.id == thread_id) with
  | some t =>
      some { id := t.id
             name := t.name
             createdAt := date_serialize (some t.createdAt)
             metadata := t.metadata_
             tags := t.tags
             user := (ownerOf db t).map userDictOf
             steps := (db.steps.filter (fun s => s.thread_id == thread_id)).map
               (stepOutOf true)
             elements := (db.elements.filter (fun e => e.thread_id == thread_id)).map
               elementDictOf }
  | none => none

/-- `get_thread_author`: identifier of the owning user of a thread, `""` when
the thread or its user is missing. -/
def get_thread_author (db : DB) (thread_id : String) : String :=
  match db.threads.find? (fun t => t.id == thread_id) with
  | some t => ((ownerOf db t).map (fun u => u.identifier)).getD ""
  | none => ""

/-- `delete_thread`: delete by id, cascading (via the `all, delete,
delete-orphan` relationships of `ThreadModel`) to the thread's steps and
elements.  Feedback rows are NOT cascaded: `feedback.for_id` is NOT NULL with
no delete cascade, so when any feedback row references a step of the thread
the delete fails and the transaction rolls back, leaving the store
unchanged. -/
def delete_thread (db : DB) (thread_id : String) : Except Unit Bool × DB :=
  match db.threads.find? (fun t => t.id == thread_id) with
  | some _ =>
      if db.feedback.any (fun f =>
          db.steps.any (fun s => s.thread_id == thread_id && s.id == f.for_id)) then
        (.error (), db)
      else
        (.ok true,
         { db with
           threads := db.threads.filter (fun t => t.id != thread_id)
           steps := db.steps.filter (fun s => s.thread_id != thread_id)
           elements := db.elements.filter (fun e => e.thread_id != thread_id) })
  | none => (.ok false, db)

/-- Lexicographic strict order on character lists (by code point), the text
ordering a SQL backend applies to `threads.id > cursor`. -/
def charListLt : List Char → List Char → Bool
  | [], [] => false
  | [], _ :: _ => true
  | _ :: _, [] => false
  | a :: as, b :: bs =>
      a.toNat < b.toNat || (a.toNat == b.toNat && charListLt as bs)

/-- Strict text order on strings (`a` sorts before `b`). -/
def strLt (a b : String) : Bool := charListLt a.data b.data

/-- Substring occurrence over character lists (kernel-reducible). -/
def hasSubstr (needle : List Char) : List Char → Bool
  | [] => needle.isEmpty
  | c :: rest => needle.isPrefixOf (c :: rest) || hasSubstr needle rest

/-- `column ILIKE '%search%'`: case-insensitive substring match (for search
strings without further SQL wildcards). -/
def ilikeContains (hay search : String) : Bool :=
  hasSubstr search.toLower.toList hay.toLower.toList

/-- The WHERE clause accumulated by `list_threads` before ordering and limit:
the inner `JOIN users ON threads.user_id = users.id` (threads with a NULL or
dangling `user_id` are dropped), then the optional owning-user filter, the
optional case-insensitive name search (`NULL` names never match), and the
optional cursor predicate `threads.id > cursor`.  Each optional part is
guarded by Python truthiness of the corresponding argument. -/
def threadPred (db : DB) (p : Pagination) (f : ThreadFilter) (t : ThreadRow) : Bool :=
  (match t.user_id with
   | some uid => db.users.any (fun u => u.id == uid)
   | none => false)
  && (if isTruthy f.userId then t.user_id == f.userId else true)
  && (if isTruthy f.search then
        (match t.name with
         | some n => ilikeContains n (f.search.getD "")
         | none => false)
      else true)
  && (if isTruthy p.cursor then strLt (p.cursor.getD "") t.id else true)

/-- `ORDER BY threads.createdAt DESC`: a row may precede another when its
`createdAt` is at least the other's. -/
def threadGe (a b : ThreadRow) : Prop := b.createdAt ≤ a.createdAt

instance : DecidableRel threadGe :=
  fun a b => inferInstanceAs (Decidable (b.createdAt ≤ a.createdAt))

instance : IsTotal ThreadRow threadGe :=
  ⟨fun a b => le_total b.createdAt a.createdAt⟩

instance : IsTrans ThreadRow threadGe :=
  ⟨fun _ _ _ h1 h2 => le_trans h2 h1⟩

/-- The page of thread rows produced by the `list_threads` query: filter,
sort by `createdAt` descending, `LIMIT pagination.first`. -/
def listThreadsRows (db : DB) (p : Pagination) (f : ThreadFilter) : List ThreadRow :=
  (List.insertionSort threadGe (db.threads.filter (threadPred db p f))).take p.first

/-- Thread row → the hydrated `ThreadDict` built by `list_threads` (steps and
elements loaded per thread; the user dictionary comes from the joined owning
user, which the join guarantees to exist). -/
def threadDictOf (db : DB) (t : ThreadRow) : ThreadDict :=
  { id := t.id
    name := t.name
    createdAt := date_serialize (some t.createdAt)
    metadata := t.metadata_
    tags := t.tags
    user := (ownerOf db t).map userDictOf
    steps := (db.steps.filter (fun s => s.thread_id == t.id)).map (stepOutOf false)
    elements := (db.elements.filter (fun e => e.thread_id == t.id)).map elementDictOf }

/-- `list_threads`: paginated, filtered listing.  When `filters.feedback` is
not `None` the source executes `query.join(FeedbackModel)`; the `feedback`
table references only `steps.id`, and neither `threads` nor `users` (the
entities present in the query) has a foreign key or relationship to it, so
SQLAlchemy cannot infer an ON clause and query construction raises
`InvalidRequestError` — modelled as the error outcome.  Otherwise the page is
built from `listThreadsRows`; `hasNextPage` is whether exactly
`pagination.first` rows came back, and the cursors are the first and last
returned ids. -/
def list_threads (db : DB) (p : Pagination) (f : ThreadFilter) :
    Except Unit PaginatedResponse :=
  if f.feedback.isSome then
    .error ()
  else
    let threads := listThreadsRows db p f
    .ok { data := threads.map (threadDictOf db)
          pageInfo :=
            { hasNextPage := threads.length == p.first
              startCursor := threads.head?.map (fun t => t.id)
              endCursor := threads.getLast?.map (fun t => t.id) } }

/-- The field assignments guarded by `if … is not None:` in `update_thread`. -/
def applyThreadFields (t : ThreadRow) (name : Option String) (user_id : Option String)
    (metadata : Option Json) (tags : Option (List String)) : ThreadRow :=
  { t with
    name := match name with | some n => some n | none => t.name
    user_id := match user_id with | some u => some u | none => t.user_id
    metadata_ := match metadata with | some m => some m | none => t.metadata_
    tags := match tags with | some ts => some ts | none => t.tags }

/-- `update_thread`: upsert by thread id.  When the row is absent a new
`ThreadModel(id=…, name=…, createdAt=now)` is built (its other columns NULL),
then whichever optional arguments were supplied are assigned, and the row is
committed; an existing row keeps every field whose argument was omitted. -/
def update_thread (now : Nat) (db : DB) (thread_id : String) (name : Option String)
    (user_id : Option String) (metadata : Option Json) (tags : Option (List String)) : DB :=
  match db.threads.find? (fun t => t.id == thread_id) with
  | some _ =>
      { db with threads := (updateFirst (fun t => t.id == thread_id)
          (fun t => applyThreadFields t name user_id metadata tags) db.threads) }
  | none =>
      let t0 : ThreadRow :=
        { id := thread_id
          name := name
          createdAt := now
          metadata_ := none
          user_id := none
          tags := none }
      { db with threads := db.threads ++ [applyThreadFields t0 name user_id metadata tags] }

theorem updateFirst_length (p : α → Bool) (f : α → α) (l : List α) :
    (updateFirst p f l).length = l.length := by
  induction l with
  | nil => rfl
  | cons x xs ih =>
      simp only [updateFirst]
      by_cases h : p x
      · simp [h]
      · simp [h, ih]

theorem updateFirst_append_singleton (p : α → Bool) (f : α → α) (l : List α) (x : α)
    (hl : ∀ y ∈ l, ¬ p y = true) (hx : p x = true) :
    updateFirst p f (l ++ [x]) = l ++ [f x] := by
  induction l with
  | nil => simp [updateFirst, hx]
  | cons y ys ih =>
      have hy : ¬ p y = true := hl y (by simp)
      simp only [List.cons_append, updateFirst, if_neg hy]
      rw [show ys.append [x] = ys ++ [x] from rfl, ih (fun z hz => hl z (by simp [hz]))]

theorem mem_updateFirst_of_not (p : α → Bool) (f : α → α) (l : List α) (x : α)
    (hx : x ∈ l) (hpx : ¬ p x = true) : x ∈ updateFirst p f l := by
  induction l with
  | nil => cases hx
  | cons y ys ih =>
      simp only [updateFirst]
      by_cases h : p y
      · rw [if_pos h]
        rcases List.mem_cons.mp hx with rfl | hmem
        · exact absurd h hpx
        · exact List.mem_cons_of_mem _ hmem
      · rw [if_neg h]
        rcases List.mem_cons.mp hx with rfl | hmem
        · exact List.mem_cons_self _ _
        · exact List.mem_cons_of_mem _ (ih hmem)

theorem updateFirst_mem_replaced (p : α → Bool) (f : α → α) (l : List α) (t : α)
    (ht : t ∈ l) (hpt : p t = true) (huniq : ∀ u ∈ l, p u = true → u = t) :
    f t ∈ updateFirst p f l := by
  induction l with
  | nil => cases ht
  | cons y ys ih =>
      simp only [updateFirst]
      by_cases h : p y
      · rw [if_pos h]
        have hyt : y = t := huniq y (by simp) h
        subst hyt
        exact List.mem_cons_self _ _
      · rw [if_neg h]
        rcases List.mem_cons.mp ht with rfl | hmem
        · exact absurd hpt h
        · exact List.mem_cons_of_mem _
            (ih hmem (fun u hu hpu => huniq u (List.mem_cons_of_mem _ hu) hpu))

theorem map_eq_self_of_eq (g : α → α) (l : List α) (h : ∀ a ∈ l, g a = a) :
    l.map g = l := by
  induction l with
  | nil => rfl
  | cons x xs ih =>
      simp only [List.map_cons]
      rw [h x (by simp), ih (fun a ha => h a (by simp [ha]))]

theorem create_user_absent (now : Nat) (db : DB) (user : User)
    (h : db.users.find? (fun u => u.identifier == user.identifier) = none) :
    create_user now db user
      = ({ id := uuidStr db.nextUuid
           identifier := user.identifier
           createdAt := dtStr now
           metadata := none },
         { db with users := db.users ++ [{ id := uuidStr db.nextUuid
                                           identifier := user.identifier
                                           createdAt := now
                                           metadata_ := none }]
                   nextUuid := db.nextUuid + 1 }) := by
  unfold create_user
  rw [h]

theorem create_user_present (now : Nat) (db : DB) (user : User) (um : UserRow)
    (h : db.users.find? (fun u => u.identifier == user.identifier) = some um) :
    create_user now db user
      = ({ id := um.id
           identifier := um.identifier
           createdAt := dtStr um.createdAt
           metadata := some user.metadata },
         { db with users := (updateFirst (fun u => u.identifier == user.identifier)
             (fun u => { u with metadata_ := some user.metadata }) db.users) }) := by
  unfold create_user
  rw [h]

/-- C5 (amended): for every step dictionary, `create_step` persists a Step
whose `createdAt` and `startTime` are both the current time — any timestamps
supplied in the dictionary are ignored — and whose `endTime` is absent; the
returned dictionary carries `createdAt` and `start` serialized in ISO-8601
form and `end` as the absent marker, and no other table is touched. -/
theorem create_step_always_now (now : Nat) (db : DB) (sd : StepDict) :
    (create_step now db sd).2.steps
      = db.steps ++ [{ id := sd.id
                       thread_id := sd.threadId
                       parent_id := sd.parentId
                       name := sd.name
                       type := sd.type
                       input := sd.input
                       output := sd.output
                       metadata_ := sd.metadata
                       created_at := now
                       start_time := now
                       end_time := none }] ∧
    (create_step now db sd).1.createdAt = some (isoformat now) ∧
    (create_step now db sd).1.start = some (isoformat now) ∧
    (create_step now db sd).1.end_ = none ∧
    (create_step now db sd).2.threads = db.threads ∧
    (create_step now db sd).2.users = db.users ∧
    (create_step now db sd).2.elements = db.elements ∧
    (create_step now db sd).2.feedback = db.feedback :=
  ⟨rfl, rfl, rfl, rfl, rfl, rfl, rfl, rfl⟩

/-- A step dictionary that supplies explicit `createdAt`/`start`/`end`
timestamps. -/
def sdTimed : StepDict :=
  { id := "s1"
    threadId := "t1"
    parentId := none
    name := "step"
    type := "run"
    input := none
    output := none
    metadata := none
    createdAt := some "5"
    start := some "7"
    end_ := some "9" }

/-- C5 counterexample: `sdTimed` supplies `createdAt = "5"` and
`start = "7"`, yet at current time 99 the persisted row carries
`created_at = start_time = 99` (and `end_time = None`), not the supplied
instants — refuting the claim that supplied values are used when present. -/
theorem create_step_ignores_supplied_timestamps :
    sdTimed.createdAt = some "5" ∧ sdTimed.start = some "7" ∧
    ((create_step 99 dbEmpty sdTimed).2.steps.map
        (fun s => (s.created_at, s.start_time, s.end_time)))
      = [(99, 99, none)] ∧
    ¬ (99 : Nat) = fromisoformat "5" ∧ ¬ (99 : Nat) = fromisoformat "7" := by
  refine ⟨rfl, rfl, rfl, ?_, ?_⟩ <;> decide

/-- C6 (code bug): on an identifier with no matching row and creation enabled,
`get_user` does create the user row (with a generated id, the current
timestamp, and NULL metadata), but — because the recursive
`self.get_user(identifier, no_create=True)` is returned without being
awaited — the caller receives the bare coroutine object instead of the
persisted `PersistedUser` record.  With creation disabled the absent-marker is
returned and nothing is written. -/
theorem get_user_missing_returns_coroutine :
    (get_user 5 dbEmpty "alice" false).1 = GetUserResult.coroutine ∧
    ((get_user 5 dbEmpty "alice" false).2.users.map
        (fun u => (u.id, u.identifier, u.createdAt, u.metadata_)))
      = [("uuid-0", "alice", 5, none)] ∧
    get_user 5 dbEmpty "alice" true = (GetUserResult.absent, dbEmpty) :=
  ⟨rfl, rfl, rfl⟩

/-- Store for the cascade-delete counterexample: one thread `t1` owning one
step `s1` and one element `e1`, with one feedback row rating `s1`. -/
def dbCascade : DB :=
  { users := []
    threads := [{ id := "t1"
                  name := none
                  createdAt := 1
                  metadata_ := none
                  user_id := none
                  tags := none }]
    steps := [{ id := "s1"
                thread_id := "t1"
                parent_id := none
                name := "step"
                type := "run"
                input := none
                output := none
                metadata_ := none
                created_at := 1
                start_time := 1
                end_time := none }]
    elements := [{ id := "e1"
                   type := "file"
                   name := "att"
                   chainlit_key := none
                   url := none
                   object_key := none
                   path := none
                   display := "inline"
                   size := none
                   for_id := none
                   language := none
                   mime := none
                   content := none
                   page := none
                   thread_id := "t1"
                   persisted := false
                   updatable := false }]
    feedback := [{ id := 1, for_id := "s1", value := some "1", strategy := "BINARY", comment := none }]
    nextUuid := 0
    feedbackSeq := 2 }

/-- C2 (code bug): deleting thread `t1` of `dbCascade`, whose step `s1` has a
feedback row, fails — nothing deletes the feedback (`feedback.for_id` is NOT
NULL with no delete cascade), so the delete errors out and the store is
unchanged instead of cascading and returning true.  Without the feedback row
the same delete does cascade to the step and the element and returns true,
and deleting a missing thread returns false. -/
theorem delete_thread_feedback_not_cascaded :
    delete_thread dbCascade "t1" = (Except.error (), dbCascade) ∧
    (delete_thread { dbCascade with feedback := [] } "t1").1 = Except.ok true ∧
    (delete_thread { dbCascade with feedback := [] } "t1").2.threads = [] ∧
    (delete_thread { dbCascade with feedback := [] } "t1").2.steps = [] ∧
    (delete_thread { dbCascade with feedback := [] } "t1").2.elements = [] ∧
    delete_thread dbCascade "missing" = (Except.ok false, dbCascade) :=
  ⟨rfl, rfl, rfl, rfl, rfl, rfl⟩

/-- Store for the feedback-filter counterexample: user `u1` owns thread `t1`
whose step `s1` has a feedback row with value `"1"`. -/
def dbFeedbackFilter : DB :=
  { users := [{ id := "u1", identifier := "alice", createdAt := 1, metadata_ := none }]
    threads := [{ id := "t1"
                  name := some "chat"
                  createdAt := 2
                  metadata_ := none
                  user_id := some "u1"
                  tags := none }]
    steps := [{ id := "s1"
                thread_id := "t1"
                parent_id := none
                name := "step"
                type := "run"
                input := none
                output := none
                metadata_ := none
                created_at := 2
                start_time := 2
                end_time := none }]
    elements := []
    feedback := [{ id := 1, for_id := "s1", value := some "1", strategy := "BINARY", comment := none }]
    nextUuid := 1
    feedbackSeq := 2 }

/-- C9 (code bug): `dbFeedbackFilter` holds a thread whose step carries
feedback with value `"1"`, yet `list_threads` with `filters.feedback = 1`
does not return it — the `join(FeedbackModel)` has no inferable join path
(feedback references only steps, which are not part of the query), so the
call errors out; without the feedback filter the very same thread is
returned. -/
theorem list_threads_feedback_filter_errors :
    list_threads dbFeedbackFilter { first := 10, cursor := none }
        { userId := none, search := none, feedback := some 1 } = Except.error () ∧
    (dbFeedbackFilter.feedback.map (fun f => (f.for_id, f.value))) = [("s1", some "1")] ∧
    (dbFeedbackFilter.steps.map (fun s => (s.id, s.thread_id))) = [("s1", "t1")] ∧
    ((list_threads dbFeedbackFilter { first := 10, cursor := none }
        { userId := none, search := none, feedback := none }).map
      (fun r => r.data.map (fun td => td.id))) = Except.ok ["t1"] :=
  ⟨rfl, rfl, rfl, rfl⟩

/-- C4: starting from a store without the identifier, calling `create_user`
with metadata `m1` and then again (same identifier) with metadata `m2` leaves
exactly one user row with that identifier; that row's metadata is `m2` and its
id and creation instant are the ones assigned by the first call; the second
call returns the persisted record. -/
theorem create_user_upsert_spec (db : DB) (u1 u2 : User) (now1 now2 : Nat)
    (hid : u2.identifier = u1.identifier)
    (habs : ∀ r ∈ db.users, ¬ r.identifier = u1.identifier) :
    (create_user now2 (create_user now1 db u1).2 u2).2.users
      = db.users ++ [{ id := uuidStr db.nextUuid
                       identifier := u1.identifier
                       createdAt := now1
                       metadata_ := some u2.metadata }] ∧
    ((create_user now2 (create_user now1 db u1).2 u2).2.users.filter
        (fun r => r.identifier == u1.identifier)).length = 1 ∧
    (create_user now1 db u1).1.id = uuidStr db.nextUuid ∧
    (create_user now1 db u1).1.createdAt = dtStr now1 ∧
    (create_user now2 (create_user now1 db u1).2 u2).1
      = { id := uuidStr db.nextUuid
          identifier := u1.identifier
          createdAt := dtStr now1
          metadata := some u2.metadata } := by
  have h1 : db.users.find? (fun u => u.identifier == u1.identifier) = none :=
    List.find?_eq_none.mpr (fun x hx => by simpa using habs x hx)
  have e1 := create_user_absent now1 db u1 h1
  have h21 : (create_user now1 db u1).2
      = { db with users := db.users ++ [{ id := uuidStr db.nextUuid
                                          identifier := u1.identifier
                                          createdAt := now1
                                          metadata_ := none }]
                  nextUuid := db.nextUuid + 1 } := by rw [e1]
  have hpred : (fun (u : UserRow) => u.identifier == u2.identifier)
        ({ id := uuidStr db.nextUuid
           identifier := u1.identifier
           createdAt := now1
           metadata_ := none } : UserRow) = true := by simp [hid]
  have h2 : ((db.users ++ [({ id := uuidStr db.nextUuid
                              identifier := u1.identifier
                              createdAt := now1
                              metadata_ := none } : UserRow)]).find?
        (fun u => u.identifier == u2.identifier))
      = some { id := uuidStr db.nextUuid
               identifier := u1.identifier
               createdAt := now1
               metadata_ := none } := by
    rw [List.find?_append]
    have hnone : db.users.find? (fun u => u.identifier == u2.identifier) = none :=
      List.find?_eq_none.mpr (fun x hx => by simpa [hid] using habs x hx)
    have hsingle : (List.find? (fun (u : UserRow) => u.identifier == u2.identifier)
          [{ id := uuidStr db.nextUuid
             identifier := u1.identifier
             createdAt := now1
             metadata_ := none }])
        = some { id := uuidStr db.nextUuid
                 identifier := u1.identifier
                 createdAt := now1
                 metadata_ := none } :=
      List.find?_cons_of_pos _ hpred
    rw [hnone, hsingle]
    rfl
  have e2 := create_user_present now2 ((create_user now1 db u1).2) u2
      { id := uuidStr db.nextUuid
        identifier := u1.identifier
        createdAt := now1
        metadata_ := none } (by rw [h21]; exact h2)
  have hl : ∀ y ∈ db.users, ¬ (fun (u : UserRow) => u.identifier == u2.identifier) y = true :=
    fun y hy => by simpa [hid] using habs y hy
  have happly := updateFirst_append_singleton
      (fun (u : UserRow) => u.identifier == u2.identifier)
      (fun u => { u with metadata_ := some u2.metadata }) db.users
      { id := uuidStr db.nextUuid
        identifier := u1.identifier
        createdAt := now1
        metadata_ := none } hl hpred
  have husers : (create_user now2 (create_user now1 db u1).2 u2).2.users
      = db.users ++ [{ id := uuidStr db.nextUuid
                       identifier := u1.identifier
                       createdAt := now1
                       metadata_ := some u2.metadata }] := by
    rw [e2, h21]
    exact happly
  refine ⟨husers, ?_, ?_, ?_, ?_⟩
  · rw [husers, List.filter_append]
    have hnil : db.users.filter (fun r => r.identifier == u1.identifier) = [] :=
      List.filter_eq_nil_iff.mpr (fun a ha => by simpa using habs a ha)
    rw [hnil]
    simp
  · rw [e1]
  · rw [e1]
  · rw [e2]

/-- Witness for C4 at a concrete input: identifier `"bob"`, metadata
`[("k","1")]` then `[("k","2")]`, on the empty store. -/
theorem create_user_upsert_spec_witness :
    (create_user 20 (create_user 10 dbEmpty { identifier := "bob", metadata := [("k", "1")] }).2
        { identifier := "bob", metadata := [("k", "2")] }).2.users
      = dbEmpty.users ++ [{ id := uuidStr dbEmpty.nextUuid
                            identifier := "bob"
                            createdAt := 10
                            metadata_ := some [("k", "2")] }] ∧
    ((create_user 20 (create_user 10 dbEmpty { identifier := "bob", metadata := [("k", "1")] }).2
        { identifier := "bob", metadata := [("k", "2")] }).2.users.filter
        (fun r => r.identifier == "bob")).length = 1 ∧
    (create_user 10 dbEmpty { identifier := "bob", metadata := [("k", "1")] }).1.id
      = uuidStr dbEmpty.nextUuid ∧
    (create_user 10 dbEmpty { identifier := "bob", metadata := [("k", "1")] }).1.createdAt
      = dtStr 10 ∧
    (create_user 20 (create_user 10 dbEmpty { identifier := "bob", metadata := [("k", "1")] }).2
        { identifier := "bob", metadata := [("k", "2")] }).1
      = { id := uuidStr dbEmpty.nextUuid
          identifier := "bob"
          createdAt := dtStr 10
          metadata := some [("k", "2")] } :=
  create_user_upsert_spec dbEmpty { identifier := "bob", metadata := [("k", "1")] }
    { identifier := "bob", metadata := [("k", "2")] } 10 20 rfl (by simp [dbEmpty])

/-- C7: `upsert_feedback` without an id inserts a new row (fields taken from
the input, `strategy` defaulted) and returns the freshly generated
autoincrement id as a string, distinct — under the autoincrement invariant
that existing ids are below the counter — from every stored feedback id; with
a (truthy) id it returns that id and updates exactly `comment` and `value` on
the matching rows, leaving non-matching rows in place, and is a silent no-op
(not an error) when nothing matches. -/
theorem upsert_feedback_spec (db : DB) (fb : FeedbackInput) :
    (fb.id = none →
      (upsert_feedback db fb).1 = toString db.feedbackSeq ∧
      (upsert_feedback db fb).2.feedback
        = db.feedback ++ [{ id := db.feedbackSeq
                            for_id := fb.forId
                            value := some (toString fb.value)
                            strategy := "BINARY"
                            comment := fb.comment }] ∧
      ((∀ r ∈ db.feedback, r.id < db.feedbackSeq) →
        ∀ r ∈ db.feedback, ¬ r.id = db.feedbackSeq)) ∧
    (∀ fid, fb.id = some fid → ¬ fid = "" →
      (upsert_feedback db fb).1 = fid ∧
      (upsert_feedback db fb).2.feedback.length = db.feedback.length ∧
      (∀ r ∈ db.feedback, toString r.id = fid →
        ({ r with comment := fb.comment, value := some (toString fb.value) } : FeedbackRow)
          ∈ (upsert_feedback db fb).2.feedback) ∧
      (∀ r ∈ db.feedback, ¬ toString r.id = fid →
        r ∈ (upsert_feedback db fb).2.feedback) ∧
      ((∀ r ∈ db.feedback, ¬ toString r.id = fid) → (upsert_feedback db fb).2 = db)) := by
  constructor
  · intro hnone
    rw [show upsert_feedback db fb = insertFeedback db fb by rw [upsert_feedback, hnone]]
    refine ⟨rfl, rfl, fun hseq r hr => Nat.ne_of_lt (hseq r hr)⟩
  · intro fid hsome hne
    have hrw : upsert_feedback db fb
        = (fid, { db with feedback := (db.feedback.map (fun r =>
            if toString r.id == fid
            then { r with comment := fb.comment, value := some (toString fb.value) }
            else r)) }) := by
      simp only [upsert_feedback, hsome]
      rw [if_neg hne]
    rw [hrw]
    refine ⟨rfl, by simp, ?_, ?_, ?_⟩
    · intro r hr hmatch
      have hmem := List.mem_map_of_mem (fun r : FeedbackRow =>
        if toString r.id == fid
        then { r with comment := fb.comment, value := some (toString fb.value) }
        else r) hr
      simpa [hmatch] using hmem
    · intro r hr hmiss
      have hmem := List.mem_map_of_mem (fun r : FeedbackRow =>
        if toString r.id == fid
        then { r with comment := fb.comment, value := some (toString fb.value) }
        else r) hr
      simpa [hmiss] using hmem
    · intro hall
      have : (db.feedback.map (fun r =>
          if toString r.id == fid
          then { r with comment := fb.comment, value := some (toString fb.value) }
          else r)) = db.feedback :=
        map_eq_self_of_eq _ _ (fun a ha => by simp [hall a ha])
      rw [this]

/-- Fixture store for the feedback-upsert witness: one feedback row with
generated id 0, counter at 1. -/
def dbFb : DB :=
  { users := [], threads := [], steps := [], elements := []
    feedback := [{ id := 0, for_id := "s1", value := some "1", strategy := "BINARY", comment := none }]
    nextUuid := 0
    feedbackSeq := 1 }

/-- Witness for C7: inserting without an id on `dbFb` returns the fresh id
`"1"` (distinct from the stored id 0); updating id `"0"` rewrites that row's
`comment` and `value` in place. -/
theorem upsert_feedback_spec_witness :
    (upsert_feedback dbFb { id := none, forId := "s1", value := 1, comment := none }).1
      = toString dbFb.feedbackSeq ∧
    (∀ r ∈ dbFb.feedback, ¬ r.id = dbFb.feedbackSeq) ∧
    (upsert_feedback dbFb { id := some "0", forId := "s1", value := -1, comment := some "better" }).1
      = "0" ∧
    ({ id := 0
       for_id := "s1"
       value := some (toString (-1 : Int))
       strategy := "BINARY"
       comment := some "better" } : FeedbackRow)
      ∈ (upsert_feedback dbFb
          { id := some "0", forId := "s1", value := -1, comment := some "better" }).2.feedback := by
  have hIns := (upsert_feedback_spec dbFb { id := none, forId := "s1", value := 1, comment := none }).1 rfl
  have hUpd := (upsert_feedback_spec dbFb
      { id := some "0", forId := "s1", value := -1, comment := some "better" }).2 "0" rfl (by decide)
  refine ⟨hIns.1, hIns.2.2 (by decide), hUpd.1, ?_⟩
  exact hUpd.2.2.1 { id := 0, for_id := "s1", value := some "1", strategy := "BINARY", comment := none }
    (by decide) (by decide)

theorem applyThreadFields_fresh (tid : String) (now : Nat) (name : Option String)
    (uid : Option String) (md : Option Json) (tags : Option (List String)) :
    applyThreadFields { id := tid
                        name := name
                        createdAt := now
                        metadata_ := none
                        user_id := none
                        tags := none } name uid md tags
      = { id := tid
          name := name
          createdAt := now
          metadata_ := md
          user_id := uid
          tags := tags } := by
  cases name <;> cases uid <;> cases md <;> cases tags <;> rfl

/-- C8: `update_thread` touches only the `threads` table.  When no row has the
given id it appends one whose `id` is the given id, whose `createdAt` is the
current time and whose `name`/`user_id`/`metadata_`/`tags` are exactly the
supplied optional arguments (NULL when omitted).  When a row exists (ids being
unique), the row is replaced by `applyThreadFields` of it — which keeps every
omitted field and overwrites every supplied one — while every other thread row
stays and the row count is unchanged. -/
theorem update_thread_upsert_spec (now : Nat) (db : DB) (tid : String)
    (name : Option String) (uid : Option String) (md : Option Json)
    (tags : Option (List String)) :
    (update_thread now db tid name uid md tags).users = db.users ∧
    (update_thread now db tid name uid md tags).steps = db.steps ∧
    (update_thread now db tid name uid md tags).elements = db.elements ∧
    (update_thread now db tid name uid md tags).feedback = db.feedback ∧
    ((∀ t ∈ db.threads, ¬ t.id = tid) →
      (update_thread now db tid name uid md tags).threads
        = db.threads ++ [{ id := tid
                           name := name
                           createdAt := now
                           metadata_ := md
                           user_id := uid
                           tags := tags }]) ∧
    ((db.threads.map (fun t => t.id)).Nodup →
      ∀ t ∈ db.threads, t.id = tid →
        (update_thread now db tid name uid md tags).threads.length = db.threads.length ∧
        applyThreadFields t name uid md tags ∈ (update_thread now db tid name uid md tags).threads ∧
        (∀ t' ∈ db.threads, ¬ t'.id = tid →
          t' ∈ (update_thread now db tid name uid md tags).threads)) ∧
    (∀ t : ThreadRow,
      (name = none → (applyThreadFields t name uid md tags).name = t.name) ∧
      (∀ n, name = some n → (applyThreadFields t name uid md tags).name = some n) ∧
      (uid = none → (applyThreadFields t name uid md tags).user_id = t.user_id) ∧
      (∀ u, uid = some u → (applyThreadFields t name uid md tags).user_id = some u) ∧
      (md = none → (applyThreadFields t name uid md tags).metadata_ = t.metadata_) ∧
      (∀ m, md = some m → (applyThreadFields t name uid md tags).metadata_ = some m) ∧
      (tags = none → (applyThreadFields t name uid md tags).tags = t.tags) ∧
      (∀ ts, tags = some ts → (applyThreadFields t name uid md tags).tags = some ts) ∧
      (applyThreadFields t name uid md tags).id = t.id ∧
      (applyThreadFields t name uid md tags).createdAt = t.createdAt) := by
  have hframe : (update_thread now db tid name uid md tags).users = db.users ∧
      (update_thread now db tid name uid md tags).steps = db.steps ∧
      (update_thread now db tid name uid md tags).elements = db.elements ∧
      (update_thread now db tid name uid md tags).feedback = db.feedback := by
    unfold update_thread
    cases hfind : db.threads.find? (fun t => t.id == tid) <;> exact ⟨rfl, rfl, rfl, rfl⟩
  refine ⟨hframe.1, hframe.2.1, hframe.2.2.1, hframe.2.2.2, ?_, ?_, ?_⟩
  · intro habs
    have hfind : db.threads.find? (fun t => t.id == tid) = none :=
      List.find?_eq_none.mpr (fun x hx => by simpa using habs x hx)
    unfold update_thread
    rw [hfind]
    show db.threads ++ [applyThreadFields { id := tid
                                            name := name
                                            createdAt := now
                                            metadata_ := none
                                            user_id := none
                                            tags := none } name uid md tags]
      = db.threads ++ [{ id := tid
                         name := name
                         createdAt := now
                         metadata_ := md
                         user_id := uid
                         tags := tags }]
    rw [applyThreadFields_fresh]
  · intro hnd t ht htid
    have hfindsome : (db.threads.find? (fun t => t.id == tid)).isSome :=
      List.find?_isSome.mpr ⟨t, ht, by simp [htid]⟩
    obtain ⟨s, hs⟩ := Option.isSome_iff_exists.mp hfindsome
    have hthreads : (update_thread now db tid name uid md tags).threads
        = updateFirst (fun t => t.id == tid)
            (fun t => applyThreadFields t name uid md tags) db.threads := by
      unfold update_thread
      rw [hs]
    rw [hthreads]
    refine ⟨updateFirst_length _ _ _, ?_, ?_⟩
    · exact updateFirst_mem_replaced _ _ _ t ht (by simp [htid])
        (fun u hu hpu => List.inj_on_of_nodup_map hnd hu ht
          (by simpa [htid] using hpu))
    · intro t' ht' hne
      exact mem_updateFirst_of_not _ _ _ t' ht' (by simpa using hne)
  · intro t
    refine ⟨?_, ?_, ?_, ?_, ?_, ?_, ?_, ?_, ?_, ?_⟩
    · intro h; rw [h]; rfl
    · intro n h; rw [h]; rfl
    · intro h; rw [h]; cases name <;> rfl
    · intro u h; rw [h]; cases name <;> rfl
    · intro h; rw [h]; cases name <;> cases uid <;> rfl
    · intro m h; rw [h]; cases name <;> cases uid <;> rfl
    · intro h; rw [h]; cases name <;> cases uid <;> cases md <;> rfl
    · intro ts h; rw [h]; cases name <;> cases uid <;> cases md <;> rfl
    · cases name <;> cases uid <;> cases md <;> cases tags <;> rfl
    · cases name <;> cases uid <;> cases md <;> cases tags <;> rfl

/-- Fixture store for the thread-upsert witness: a single thread `t1`. -/
def dbThreads : DB :=
  { users := []
    threads := [{ id := "t1"
                  name := some "old"
                  createdAt := 1
                  metadata_ := none
                  user_id := none
                  tags := some ["x"] }]
    steps := [], elements := [], feedback := []
    nextUuid := 0, feedbackSeq := 0 }

/-- Witness for C8: upserting a missing id `t2` appends a fresh minimal row
with the supplied name; upserting the existing `t1` with only `user_id`
supplied keeps the row count, replaces the row by its field-update, and
leaves the other tables alone. -/
theorem update_thread_upsert_spec_witness :
    (update_thread 9 dbThreads "t2" (some "N") none none none).threads
      = dbThreads.threads ++ [{ id := "t2"
                                name := some "N"
                                createdAt := 9
                                metadata_ := none
                                user_id := none
                                tags := none }] ∧
    (update_thread 9 dbThreads "t1" none (some "u9") none none).threads.length
      = dbThreads.threads.length ∧
    applyThreadFields { id := "t1"
                        name := some "old"
                        createdAt := 1
                        metadata_ := none
                        user_id := none
                        tags := some ["x"] } none (some "u9") none none
      ∈ (update_thread 9 dbThreads "t1" none (some "u9") none none).threads ∧
    (update_thread 9 dbThreads "t1" none (some "u9") none none).users = dbThreads.users := by
  have hAbs := (update_thread_upsert_spec 9 dbThreads "t2" (some "N") none none none).2.2.2.2.1
      (by decide)
  have hPres := (update_thread_upsert_spec 9 dbThreads "t1" none (some "u9") none none).2.2.2.2.2.1
      (by decide)
      { id := "t1"
        name := some "old"
        createdAt := 1
        metadata_ := none
        user_id := none
        tags := some ["x"] }
      (by decide) rfl
  exact ⟨hAbs, hPres.1, hPres.2.1,
    (update_thread_upsert_spec 9 dbThreads "t1" none (some "u9") none none).1⟩

/-- C3: `update_step` on a step id that matches no row fails with the message
`Step with ID {id} not found` and writes nothing, while on a present id it
overwrites the mutable fields and returns the updated record; and it is the
only operation that fails on a missing row — `delete_element`, `delete_step`
and `delete_thread` return `false`, `get_element` and `get_thread` return the
absent marker, and `upsert_feedback` with an unmatched id is a silent no-op
returning the id. -/
theorem update_step_not_found_spec (db : DB) (sd : StepDict) (xid : String)
    (v : Int) (c : Option String) :
    ((∀ s ∈ db.steps, ¬ s.id = sd.id) →
      update_step db sd
        = (Except.error ("Step with ID " ++ sd.id ++ " not found"), db)) ∧
    (∀ st, db.steps.find? (fun s => s.id == sd.id) = some st →
      ((update_step db sd).1.map (fun o =>
          (o.id, o.threadId, o.name, o.type, o.input, o.output, o.metadata)))
        = Except.ok (st.id, st.thread_id, sd.name, sd.type, sd.input, sd.output, sd.metadata) ∧
      (update_step db sd).2.steps.length = db.steps.length) ∧
    ((∀ e ∈ db.elements, ¬ e.id = xid) → delete_element db xid = (false, db)) ∧
    ((∀ s ∈ db.steps, ¬ s.id = xid) → delete_step db xid = (Except.ok false, db)) ∧
    ((∀ t ∈ db.threads, ¬ t.id = xid) → delete_thread db xid = (Except.ok false, db)) ∧
    ((∀ e ∈ db.elements, ¬ e.id = xid) → get_element db xid xid = none) ∧
    ((∀ t ∈ db.threads, ¬ t.id = xid) → get_thread db xid = none) ∧
    (¬ xid = "" → (∀ f ∈ db.feedback, ¬ toString f.id = xid) →
      upsert_feedback db { id := some xid, forId := "", value := v, comment := c }
        = (xid, db)) := by
  refine ⟨?_, ?_, ?_, ?_, ?_, ?_, ?_, ?_⟩
  · intro hmiss
    have hfind : db.steps.find? (fun s => s.id == sd.id) = none :=
      List.find?_eq_none.mpr (fun x hx => by simpa using hmiss x hx)
    unfold update_step
    rw [hfind]
  · intro st hfind
    constructor
    · unfold update_step
      rw [hfind]
      rfl
    · have : (update_step db sd).2.steps
          = updateFirst (fun s => s.id == sd.id) (fun _ =>
              { st with
                name := sd.name
                type := sd.type
                input := sd.input
                output := sd.output
                metadata_ := sd.metadata
                created_at := parseIfPresent sd.createdAt st.created_at
                start_time := parseIfPresent sd.start st.start_time
                end_time := parseIfPresentOpt sd.end_ st.end_time }) db.steps := by
        unfold update_step
        rw [hfind]
      rw [this, updateFirst_length]
  · intro hmiss
    have hfind : db.elements.find? (fun e => e.id == xid) = none :=
      List.find?_eq_none.mpr (fun x hx => by simpa using hmiss x hx)
    unfold delete_element
    rw [hfind]
  · intro hmiss
    have hfind : db.steps.find? (fun s => s.id == xid) = none :=
      List.find?_eq_none.mpr (fun x hx => by simpa using hmiss x hx)
    unfold delete_step
    rw [hfind]
  · intro hmiss
    have hfind : db.threads.find? (fun t => t.id == xid) = none :=
      List.find?_eq_none.mpr (fun x hx => by simpa using hmiss x hx)
    unfold delete_thread
    rw [hfind]
  · intro hmiss
    have hfind : db.elements.find? (fun e => e.thread_id == xid && e.id == xid) = none :=
      List.find?_eq_none.mpr (fun x hx => by simp [hmiss x hx])
    unfold get_element
    rw [hfind]
    rfl
  · intro hmiss
    have hfind : db.threads.find? (fun t => t.id == xid) = none :=
      List.find?_eq_none.mpr (fun x hx => by simpa using hmiss x hx)
    unfold get_thread
    rw [hfind]
  · intro hne hall
    have hrw : upsert_feedback db { id := some xid, forId := "", value := v, comment := c }
        = (xid, { db with feedback := (db.feedback.map (fun r =>
            if toString r.id == xid
            then { r with comment := c, value := some (toString v) }
            else r)) }) := by
      simp only [upsert_feedback]
      rw [if_neg hne]
    rw [hrw]
    have : (db.feedback.map (fun r =>
        if toString r.id == xid
        then { r with comment := c, value := some (toString v) }
        else r)) = db.feedback :=
      map_eq_self_of_eq _ _ (fun a ha => by simp [hall a ha])
    rw [this]

/-- Step dictionary whose id `zz` matches nothing in `dbCascade`. -/
def sdMiss : StepDict :=
  { id := "zz"
    threadId := "t1"
    parentId := none
    name := "renamed"
    type := "tool"
    input := none
    output := none
    metadata := none
    createdAt := none
    start := none
    end_ := none }

/-- Step dictionary targeting the stored step `s1` of `dbCascade`. -/
def sdHit : StepDict :=
  { id := "s1"
    threadId := "t1"
    parentId := none
    name := "renamed"
    type := "tool"
    input := none
    output := none
    metadata := none
    createdAt := none
    start := none
    end_ := none }

/-- Witness for C3 on `dbCascade`: updating the missing step `zz` errors with
the expected message and writes nothing; updating the stored step `s1`
succeeds with the overwritten fields; and every other operation given the
missing id `zz` answers with `false`, the absent marker, or a no-op. -/
theorem update_step_not_found_spec_witness :
    update_step dbCascade sdMiss
      = (Except.error ("Step with ID " ++ "zz" ++ " not found"), dbCascade) ∧
    ((update_step dbCascade sdHit).1.map (fun o =>
        (o.id, o.threadId, o.name, o.type, o.input, o.output, o.metadata)))
      = Except.ok ("s1", "t1", "renamed", "tool", none, none, none) ∧
    (update_step dbCascade sdHit).2.steps.length = dbCascade.steps.length ∧
    delete_element dbCascade "zz" = (false, dbCascade) ∧
    delete_step dbCascade "zz" = (Except.ok false, dbCascade) ∧
    delete_thread dbCascade "zz" = (Except.ok false, dbCascade) ∧
    get_element dbCascade "zz" "zz" = none ∧
    get_thread dbCascade "zz" = none ∧
    upsert_feedback dbCascade { id := some "zz", forId := "", value := 0, comment := none }
      = ("zz", dbCascade) := by
  have h1 := update_step_not_found_spec dbCascade sdMiss "zz" 0 none
  have h2 := update_step_not_found_spec dbCascade sdHit "zz" 0 none
  have hHit := h2.2.1
      { id := "s1"
        thread_id := "t1"
        parent_id := none
        name := "step"
        type := "run"
        input := none
        output := none
        metadata_ := none
        created_at := 1
        start_time := 1
        end_time := none } (by decide)
  exact ⟨h1.1 (by decide), hHit.1, hHit.2, h1.2.2.1 (by decide), h1.2.2.2.1 (by decide),
    h1.2.2.2.2.1 (by decide), h1.2.2.2.2.2.1 (by decide), h1.2.2.2.2.2.2.1 (by decide),
    h1.2.2.2.2.2.2.2 (by decide) (by decide)⟩

theorem list_threads_ok_elim (db : DB) (p : Pagination) (f : ThreadFilter)
    (r : PaginatedResponse) (h : list_threads db p f = Except.ok r) :
    r = { data := (listThreadsRows db p f).map (threadDictOf db)
          pageInfo :=
            { hasNextPage := (listThreadsRows db p f).length == p.first
              startCursor := (listThreadsRows db p f).head?.map (fun t => t.id)
              endCursor := (listThreadsRows db p f).getLast?.map (fun t => t.id) } } := by
  by_cases hf : f.feedback.isSome = true
  · rw [show list_threads db p f = Except.error () by unfold list_threads; rw [if_pos hf]] at h
    cases h
  · rw [show list_threads db p f = Except.ok
        { data := (listThreadsRows db p f).map (threadDictOf db)
          pageInfo :=
            { hasNextPage := (listThreadsRows db p f).length == p.first
              startCursor := (listThreadsRows db p f).head?.map (fun t => t.id)
              endCursor := (listThreadsRows db p f).getLast?.map (fun t => t.id) } }
        by unfold list_threads; rw [if_neg hf]] at h
    injection h with hr
    rw [hr]

theorem mem_listThreadsRows (db : DB) (p : Pagination) (f : ThreadFilter)
    (t : ThreadRow) (ht : t ∈ listThreadsRows db p f) :
    t ∈ db.threads ∧ threadPred db p f t = true := by
  have h1 : t ∈ List.insertionSort threadGe (db.threads.filter (threadPred db p f)) :=
    List.mem_of_mem_take ht
  have h2 : t ∈ db.threads.filter (threadPred db p f) :=
    (List.perm_insertionSort threadGe _).mem_iff.mp h1
  exact List.mem_filter.mp h2

/-- C1: every successful `list_threads` page is the hydration of
`listThreadsRows`, which is sorted by `createdAt` descending; with a (truthy)
cursor every returned row's id is strictly greater than the cursor; at most
`pagination.first` rows are returned; `hasNextPage` holds exactly when the
page has exactly `pagination.first` rows; and `startCursor`/`endCursor` are
the ids of the first and last returned threads (absent on an empty page). -/
theorem list_threads_page_spec (db : DB) (p : Pagination) (f : ThreadFilter)
    (r : PaginatedResponse) (h : list_threads db p f = Except.ok r) :
    r.data = (listThreadsRows db p f).map (threadDictOf db) ∧
    List.Sorted threadGe (listThreadsRows db p f) ∧
    (∀ c, p.cursor = some c → ¬ c = "" →
      ∀ t ∈ listThreadsRows db p f, strLt c t.id = true) ∧
    r.data.length ≤ p.first ∧
    (r.pageInfo.hasNextPage = true ↔ r.data.length = p.first) ∧
    r.pageInfo.startCursor = (r.data.map (fun td => td.id)).head? ∧
    r.pageInfo.endCursor = (r.data.map (fun td => td.id)).getLast? := by
  have hr := list_threads_ok_elim db p f r h
  subst hr
  refine ⟨rfl, ?_, ?_, ?_, ?_, ?_, ?_⟩
  · exact List.Pairwise.sublist (List.take_sublist _ _)
      (List.sorted_insertionSort threadGe _)
  · intro c hc hne t ht
    have hpred := (mem_listThreadsRows db p f t ht).2
    simp only [threadPred, Bool.and_eq_true] at hpred
    have hcur := hpred.2
    rw [hc] at hcur
    have htr : isTruthy (some c) = true := by simp [isTruthy, hne]
    rw [if_pos htr] at hcur
    simpa using hcur
  · simp only [List.length_map]
    unfold listThreadsRows
    exact List.length_take_le _ _
  · show ((listThreadsRows db p f).length == p.first) = true
      ↔ ((listThreadsRows db p f).map (threadDictOf db)).length = p.first
    simp [List.length_map]
  · show (listThreadsRows db p f).head?.map (fun t => t.id)
      = (((listThreadsRows db p f).map (threadDictOf db)).map (fun td => td.id)).head?
    rw [List.map_map, List.head?_map]
    rfl
  · show (listThreadsRows db p f).getLast?.map (fun t => t.id)
      = (((listThreadsRows db p f).map (threadDictOf db)).map (fun td => td.id)).getLast?
    rw [List.map_map, List.getLast?_map]
    rfl

/-- Fixture user owning the page-listing threads. -/
def uPage : UserRow := { id := "u1", identifier := "alice", createdAt := 1, metadata_ := none }

/-- Thread `a` (createdAt 3) owned by `u1`. -/
def tPageA : ThreadRow :=
  { id := "a", name := some "Alpha", createdAt := 3, metadata_ := none, user_id := some "u1", tags := none }

/-- Thread `b` (createdAt 5) owned by `u1`. -/
def tPageB : ThreadRow :=
  { id := "b", name := some "Beta", createdAt := 5, metadata_ := none, user_id := some "u1", tags := none }

/-- Thread `c` (createdAt 4) with NULL `user_id`. -/
def tPageC : ThreadRow :=
  { id := "c", name := none, createdAt := 4, metadata_ := none, user_id := none, tags := none }

/-- Fixture store for the pagination and owner-join witnesses. -/
def dbPage : DB :=
  { users := [uPage]
    threads := [tPageA, tPageB, tPageC]
    steps := [], elements := [], feedback := []
    nextUuid := 1, feedbackSeq := 0 }

/-- The page produced on `dbPage` by `first = 2, cursor = "a"`. -/
def rPage : PaginatedResponse :=
  { data := [threadDictOf dbPage tPageB]
    pageInfo := { hasNextPage := false, startCursor := some "b", endCursor := some "b" } }

/-- Witness for C1: on `dbPage` with page size 2 and cursor `"a"`, the page is
`rPage` and all the pagination properties hold at it. -/
theorem list_threads_page_spec_witness :
    rPage.data = (listThreadsRows dbPage { first := 2, cursor := some "a" }
        { userId := none, search := none, feedback := none }).map (threadDictOf dbPage) ∧
    List.Sorted threadGe (listThreadsRows dbPage { first := 2, cursor := some "a" }
        { userId := none, search := none, feedback := none }) ∧
    (∀ t ∈ listThreadsRows dbPage { first := 2, cursor := some "a" }
        { userId := none, search := none, feedback := none }, strLt "a" t.id = true) ∧
    rPage.data.length ≤ 2 ∧
    (rPage.pageInfo.hasNextPage = true ↔ rPage.data.length = 2) ∧
    rPage.pageInfo.startCursor = (rPage.data.map (fun td => td.id)).head? ∧
    rPage.pageInfo.endCursor = (rPage.data.map (fun td => td.id)).getLast? := by
  have h := list_threads_page_spec dbPage { first := 2, cursor := some "a" }
      { userId := none, search := none, feedback := none } rPage (by rfl)
  exact ⟨h.1, h.2.1, h.2.2.1 "a" rfl (by decide), h.2.2.2.1, h.2.2.2.2.1,
    h.2.2.2.2.2.1, h.2.2.2.2.2.2⟩

/-- C10: every thread a successful `list_threads` call returns corresponds to
a stored thread row whose owning user exists (the inner join to `users`), and
its hydrated `user` field is present; consequently a stored thread whose
`user_id` is NULL — which `get_thread` happily returns — appears on no page,
whatever the pagination and filters. -/
theorem list_threads_owner_spec (db : DB) (p : Pagination) (f : ThreadFilter)
    (r : PaginatedResponse) (h : list_threads db p f = Except.ok r) :
    (∀ td ∈ r.data, td.user.isSome = true) ∧
    (∀ td ∈ r.data, ∃ t, t ∈ db.threads ∧ td.id = t.id ∧
      ∃ u, u ∈ db.users ∧ t.user_id = some u.id) ∧
    (∀ t0, (db.threads.map (fun t => t.id)).Nodup → t0 ∈ db.threads →
      t0.user_id = none →
      (∀ td ∈ r.data, ¬ td.id = t0.id) ∧ (get_thread db t0.id).isSome = true) := by
  have hr := list_threads_ok_elim db p f r h
  subst hr
  have key : ∀ td ∈ (listThreadsRows db p f).map (threadDictOf db),
      ∃ t, t ∈ db.threads ∧ threadPred db p f t = true ∧ td = threadDictOf db t := by
    intro td htd
    obtain ⟨t, ht, rfl⟩ := List.mem_map.mp htd
    obtain ⟨h1, h2⟩ := mem_listThreadsRows db p f t ht
    exact ⟨t, h1, h2, rfl⟩
  have owner : ∀ t : ThreadRow, threadPred db p f t = true →
      ∃ u, u ∈ db.users ∧ t.user_id = some u.id := by
    intro t hp
    simp only [threadPred, Bool.and_eq_true] at hp
    have hjoin := hp.1.1.1
    cases hu : t.user_id with
    | none => rw [hu] at hjoin; cases hjoin
    | some uid =>
        rw [hu] at hjoin
        obtain ⟨u, humem, hueq⟩ := List.any_eq_true.mp hjoin
        refine ⟨u, humem, ?_⟩
        exact congrArg some (beq_iff_eq.mp hueq).symm
  refine ⟨?_, ?_, ?_⟩
  · intro td htd
    obtain ⟨t, _, hp, rfl⟩ := key td htd
    obtain ⟨u, hu, huid⟩ := owner t hp
    show ((ownerOf db t).map userDictOf).isSome = true
    have : (ownerOf db t).isSome = true := by
      unfold ownerOf
      rw [huid]
      exact List.find?_isSome.mpr ⟨u, hu, by simp⟩
    obtain ⟨w, hw⟩ := Option.isSome_iff_exists.mp this
    rw [hw]
    rfl
  · intro td htd
    obtain ⟨t, ht, hp, rfl⟩ := key td htd
    exact ⟨t, ht, rfl, owner t hp⟩
  · intro t0 hnd ht0 hnull
    constructor
    · intro td htd heq
      obtain ⟨t, ht, hp, rfl⟩ := key td htd
      obtain ⟨u, _, huid⟩ := owner t hp
      have hids : t.id = t0.id := heq
      have : t = t0 := List.inj_on_of_nodup_map hnd ht ht0 hids
      rw [this, hnull] at huid
      cases huid
    · have hfind : (db.threads.find? (fun t => t.id == t0.id)).isSome :=
        List.find?_isSome.mpr ⟨t0, ht0, by simp⟩
      obtain ⟨s, hs⟩ := Option.isSome_iff_exists.mp hfind
      unfold get_thread
      rw [hs]
      rfl

/-- The full page produced on `dbPage` by `first = 5` and no cursor: thread
`c` (NULL `user_id`) is absent although stored. -/
def rPageAll : PaginatedResponse :=
  { data := [threadDictOf dbPage tPageB, threadDictOf dbPage tPageA]
    pageInfo := { hasNextPage := false, startCursor := some "b", endCursor := some "a" } }

/-- Witness for C10: on `dbPage`, the filter-free listing returns only the
user-owned threads `b` and `a`; the NULL-user thread `c` is on no page even
though `get_thread` returns it. -/
theorem list_threads_owner_spec_witness :
    (∀ td ∈ rPageAll.data, td.user.isSome = true) ∧
    (∀ td ∈ rPageAll.data, ∃ t, t ∈ dbPage.threads ∧ td.id = t.id ∧
      ∃ u, u ∈ dbPage.users ∧ t.user_id = some u.id) ∧
    (∀ td ∈ rPageAll.data, ¬ td.id = tPageC.id) ∧
    (get_thread dbPage tPageC.id).isSome = true := by
  have h := list_threads_owner_spec dbPage { first := 5, cursor := none }
      { userId := none, search := none, feedback := none } rPageAll (by rfl)
  have h3 := h.2.2 tPageC (by decide) (by decide) rfl
  exact ⟨h.1, h.2.1, h3.1, h3.2⟩
